import Mathlib

/-!
# Verification of the clock-offset measurement tool

Shallow embedding of `src/main.rs` of the `clock-offset` repository:
a UDP-based clock-offset measurement tool with two roles, a Reflector
(echoes a 16-byte timestamp datagram followed by its own clock capture)
and an Emitter/Estimator (sends timestamps, receives 32-byte replies and
computes offset bounds).

Machine-integer conventions of the embedding:
* Rust `i64` values are `Int`s together with the range predicate `i64Range`.
* Rust `i128` arithmetic is `Int` arithmetic wrapped with `i128_wrap`
  (two's-complement reduction modulo `2 ^ 128`); Rust `i128` division by 2
  is `Int.tdiv` (truncation toward zero), which matches Rust `/`.
* Bytes are `Nat`s below 256; `to_le_bytes` / `from_le_bytes` are modelled
  by `i64ToLeBytes` / `i64FromLeBytes` over lists of bytes.
* `f64` results (`nsec_to_sec`) are modelled as exact rationals; the
  `{:.9}` formatting of such a value is modelled by `fmtSec9`.
* The two event loops are modelled on finite event traces: each trace
  element is one received datagram together with the clock value the loop
  body captures while handling it.
-/

set_option maxRecDepth 16000

/-- Two's-complement wrap-around of signed 128-bit arithmetic:
the value an `i128` holding `x` modulo `2 ^ 128` represents. -/
def i128_wrap (x : Int) : Int :=
  (x + 2 ^ 127) % 2 ^ 128 - 2 ^ 127

/-- The range of Rust `i64`: `-(2^63) ≤ x < 2^63`. -/
def i64Range (x : Int) : Prop :=
  -(2 ^ 63) ≤ x ∧ x < 2 ^ 63

instance (x : Int) : Decidable (i64Range x) := by
  unfold i64Range; infer_instance

/-- Constant `NANOSECONDS_IN_SECOND` of `total_nsec` in `src/main.rs`. -/
def NANOSECONDS_IN_SECOND : Int := 1000000000

/-- Constant `PAYLOAD_SIZE` of `src/main.rs`. -/
def PAYLOAD_SIZE : Nat := 16

/-- Constant `REFLECTED_PAYLOAD_SIZE` of `src/main.rs`. -/
def REFLECTED_PAYLOAD_SIZE : Nat := 32

/-- Model of `fn total_nsec(sec: i64, nsec: i64) -> i128` of `src/main.rs`:
`sec as i128 * NANOSECONDS_IN_SECOND + nsec as i128`, with the two `i128`
operations (multiplication, addition) each wrapped as in Rust. -/
def total_nsec (sec nsec : Int) : Int :=
  i128_wrap (i128_wrap (sec * NANOSECONDS_IN_SECOND) + nsec)

/-- Value `offset_min = t1 - tau2` (line 108 of `src/main.rs`), in `i128`. -/
def offset_min_of (t1 tau2 : Int) : Int :=
  i128_wrap (t1 - tau2)

/-- Value `offset_max = t3 - tau2` (line 109 of `src/main.rs`), in `i128`. -/
def offset_max_of (t3 tau2 : Int) : Int :=
  i128_wrap (t3 - tau2)

/-- Value `offset = (t1 + t3) / 2 - tau2` (line 110 of `src/main.rs`), in `i128`;
Rust `i128` division truncates toward zero, hence `Int.tdiv`. -/
def offset_of (t1 tau2 t3 : Int) : Int :=
  i128_wrap ((i128_wrap (t1 + t3)).tdiv 2 - tau2)

/-- Model of `fn nsec_to_sec(nsec: i128) -> f64` of `src/main.rs`:
`nsec as f64 * 1e-9`, modelled as exact rational scaling (the `f64`
computation rounds to nearest; this model keeps the exact value). -/
def nsec_to_sec (nsec : Int) : ℚ :=
  (nsec : ℚ) * (1 / 1000000000)

/-- Model of `i64::to_le_bytes` of a signed 64-bit value held in `x`: the eight
little-endian base-256 digits of the two's-complement representative
`x mod 2^64`. -/
def i64ToLeBytes (x : Int) : List Nat :=
  let m : Nat := (x % 2 ^ 64).toNat
  [m % 256, m / 256 % 256, m / 256 ^ 2 % 256, m / 256 ^ 3 % 256,
   m / 256 ^ 4 % 256, m / 256 ^ 5 % 256, m / 256 ^ 6 % 256, m / 256 ^ 7 % 256]

/-- Model of `i64::from_le_bytes` of an 8-byte buffer: reassemble the unsigned
value from the little-endian digits and reinterpret in two's complement. -/
def i64FromLeBytes (bs : List Nat) : Int :=
  let u : Nat := bs.getD 0 0 + bs.getD 1 0 * 256 + bs.getD 2 0 * 256 ^ 2 +
    bs.getD 3 0 * 256 ^ 3 + bs.getD 4 0 * 256 ^ 4 + bs.getD 5 0 * 256 ^ 5 +
    bs.getD 6 0 * 256 ^ 6 + bs.getD 7 0 * 256 ^ 7
  if u < 2 ^ 63 then (u : Int) else (u : Int) - 2 ^ 64

/-- The 16-byte wire encoding of a timestamp `(sec, nsec)`: the payload
built by `send` in `src/main.rs`
(`[sec.to_le_bytes(), nsec.to_le_bytes()].concat()`). -/
def encodeTimestamp (t : Int × Int) : List Nat :=
  i64ToLeBytes t.1 ++ i64ToLeBytes t.2

/-- Decoding of a 16-byte timestamp buffer, as done by the estimator in
`receive` (`i64::from_le_bytes` of bytes `[0:8)` and `[8:16)`). -/
def decodeTimestamp (bs : List Nat) : Int × Int :=
  (i64FromLeBytes (bs.take 8), i64FromLeBytes ((bs.drop 8).take 8))

/-- One iteration of the `reflect` loop body (lines 55-63 of `src/main.rs`)
on a received datagram `data` from sender address `addr`, with `(sec, nsec)`
the clock capture the body performs: `none` when the datagram is discarded
for wrong length (with a diagnostic), otherwise the destination address and
the reply bytes `[&buf[..PAYLOAD_SIZE], &sec.to_le_bytes(), &nsec.to_le_bytes()].concat()`. -/
def reflect_step (addr : Nat) (data : List Nat) (sec nsec : Int) :
    Option (Nat × List Nat) :=
  if data.length ≠ PAYLOAD_SIZE then none
  else some (addr, data.take PAYLOAD_SIZE ++ i64ToLeBytes sec ++ i64ToLeBytes nsec)

/-- The `reflect` loop run over a finite trace of received datagrams
(each with its sender address and the clock value captured while handling
it): the list of replies sent. A discarded datagram produces no reply and
the loop continues with the rest of the trace. -/
def reflect_replies : List (Nat × List Nat × Int × Int) → List (Nat × List Nat)
  | [] => []
  | (addr, data, sec, nsec) :: rest =>
    match reflect_step addr data sec nsec with
    | none => reflect_replies rest
    | some r => r :: reflect_replies rest

/-- Model of `<&[u8] as TryInto<[u8; 8]>>::try_into` as used on the four buffer
slices in `receive`: succeeds exactly when the slice has 8 bytes; the
error is propagated by `?` (modelled as `Except.error`). -/
def try_into8 (bs : List Nat) : Except Unit (List Nat) :=
  if bs.length = 8 then Except.ok bs else Except.error ()

/-- The four field extractions of `receive` (lines 99-102 of `src/main.rs`):
`i64::from_le_bytes` of buffer slices `[0:8)`, `[8:16)`, `[16:24)`, `[24:32)`,
each through the fallible slice-to-array conversion. -/
def receive_decode (data : List Nat) : Except Unit (Int × Int × Int × Int) := do
  let b1 ← try_into8 (data.take 8)
  let b2 ← try_into8 ((data.drop 8).take 8)
  let b3 ← try_into8 ((data.drop 16).take 8)
  let b4 ← try_into8 ((data.drop 24).take 8)
  Except.ok (i64FromLeBytes b1, i64FromLeBytes b2, i64FromLeBytes b3, i64FromLeBytes b4)

/-- Left-pad a string with `'0'` up to width `w` (no-op when already at
least `w` characters), as Rust's `{:0w}` padding does for the digits. -/
def padZeros (w : Nat) (s : String) : String :=
  if s.length < w then String.mk (List.replicate (w - s.length) '0') ++ s else s

/-- Rust `{:09}` formatting of an `i64`: total width 9, zero-padded after
the sign. -/
def fmt09 (n : Int) : String :=
  if n < 0 then "-" ++ padZeros 8 (Nat.repr n.natAbs) else padZeros 9 (Nat.repr n.toNat)

/-- Rust `{:.9}` formatting of `nsec_to_sec nsec` under the exact-value
reading of the `f64`: sign, integral seconds, `'.'`, and the nanosecond
remainder zero-padded to 9 fractional digits. -/
def fmtSec9 (nsec : Int) : String :=
  (if nsec < 0 then "-" else "") ++ Nat.repr (nsec.natAbs / 1000000000) ++ "." ++
    padZeros 9 (Nat.repr (nsec.natAbs % 1000000000))

/-- The header line printed by `receive` (line 83 of `src/main.rs`) before
its loop starts. -/
def headerLine : String := "t1, tau2, t3, offset_min, offset_max, offset"

/-- The data line printed for one accepted sample (lines 104-120 of
`src/main.rs`): the offset computation on the decoded fields followed by
the `println!` format
`"{}.{:09}, {}.{:09}, {}.{:09}, {:.9}, {:.9}, {:.9}"`. -/
def sampleLine (sec1 nsec1 sec2 nsec2 sec3 nsec3 : Int) : String :=
  let t1 := total_nsec sec1 nsec1
  let tau2 := total_nsec sec2 nsec2
  let t3 := total_nsec sec3 nsec3
  Int.repr sec1 ++ "." ++ fmt09 nsec1 ++ ", " ++
  Int.repr sec2 ++ "." ++ fmt09 nsec2 ++ ", " ++
  Int.repr sec3 ++ "." ++ fmt09 nsec3 ++ ", " ++
  fmtSec9 (offset_min_of t1 tau2) ++ ", " ++
  fmtSec9 (offset_max_of t3 tau2) ++ ", " ++
  fmtSec9 (offset_of t1 tau2 t3)

/-- The data line as a function of the raw 32 datagram bytes and the
arrival clock capture alone: decode the four fields as `receive` does and
format the sample. -/
def decodedSampleLine (data : List Nat) (sec3 nsec3 : Int) : String :=
  sampleLine (i64FromLeBytes (data.take 8)) (i64FromLeBytes ((data.drop 8).take 8))
    (i64FromLeBytes ((data.drop 16).take 8)) (i64FromLeBytes ((data.drop 24).take 8))
    sec3 nsec3

/-- One iteration of the `receive` loop body (lines 88-120 of
`src/main.rs`) on a received datagram `data`, with `(sec3, nsec3)` the
`t3` clock capture: `Except.error` models the fatal `?` propagation of a
failed field extraction, `Except.ok none` the discarded wrong-length
datagram (diagnostic only), and `Except.ok (some line)` the one printed
Offset Sample record. -/
def receive_step (data : List Nat) (sec3 nsec3 : Int) : Except Unit (Option String) :=
  if data.length ≠ REFLECTED_PAYLOAD_SIZE then Except.ok none
  else
    match receive_decode data with
    | Except.error e => Except.error e
    | Except.ok (sec1, nsec1, sec2, nsec2) =>
      Except.ok (some (sampleLine sec1 nsec1 sec2 nsec2 sec3 nsec3))

/-- The data lines printed by the `receive` loop over a finite trace of
received datagrams (each with the `t3` clock capture made while handling
it). A discarded datagram prints nothing and the loop continues; a fatal
decode error ends the loop. -/
def receive_lines : List (List Nat × Int × Int) → List String
  | [] => []
  | (data, sec3, nsec3) :: rest =>
    match receive_step data sec3 nsec3 with
    | Except.error _ => []
    | Except.ok none => receive_lines rest
    | Except.ok (some line) => line :: receive_lines rest

/-- Everything `receive` prints on stdout over a finite trace: the header
line once, before any data line, then the data lines. -/
def receive_output (evs : List (List Nat × Int × Int)) : List String :=
  headerLine :: receive_lines evs

/-- Restriction of `receive_step` to its accepted case, as an `Option`-valued
trace filter: `some` exactly for the datagrams of length 32. -/
def acceptedLine (ev : List Nat × Int × Int) : Option String :=
  if ev.1.length = 32 then some (decodedSampleLine ev.1 ev.2.1 ev.2.2) else none

/-- Bounds `-(2^127) ≤ x < 2^127` mean the `i128` computation did not overflow:
the wrap is the identity there. -/
theorem i128_wrap_eq_self {x : Int}
    (h1 : -(2 ^ 127) ≤ x) (h2 : x < 2 ^ 127) : i128_wrap x = x := by
  unfold i128_wrap
  omega

/-- Rust's truncating division by 2 expressed through Euclidean division. -/
theorem tdiv_two_eq (x : Int) : x.tdiv 2 = if 0 ≤ x then x / 2 else -((-x) / 2) := by
  by_cases h : 0 ≤ x
  · rw [if_pos h, Int.tdiv_eq_ediv h (by decide)]
  · rw [if_neg h]
    calc x.tdiv 2 = (-(-x)).tdiv 2 := by rw [Int.neg_neg]
    _ = -((-x).tdiv 2) := Int.neg_tdiv (-x) 2
    _ = -((-x) / 2) := by rw [Int.tdiv_eq_ediv (by omega) (by decide)]

/-- On `i64`-ranged inputs `total_nsec` is the exact integer
`sec * 10^9 + nsec`: no wrap occurs. -/
theorem total_nsec_eq {s n : Int} (hs : i64Range s) (hn : i64Range n) :
    total_nsec s n = s * 1000000000 + n := by
  obtain ⟨hs1, hs2⟩ := hs
  obtain ⟨hn1, hn2⟩ := hn
  unfold total_nsec NANOSECONDS_IN_SECOND i128_wrap
  omega

/-- On `i64`-ranged inputs the magnitude of `total_nsec` stays below
`2 ^ 94`, far inside the `i128` range. -/
theorem total_nsec_bound {s n : Int} (hs : i64Range s) (hn : i64Range n) :
    -(2 ^ 94) < total_nsec s n ∧ total_nsec s n < 2 ^ 94 := by
  rw [total_nsec_eq hs hn]
  obtain ⟨hs1, hs2⟩ := hs
  obtain ⟨hn1, hn2⟩ := hn
  omega

/-- Derived `offset_min` does not wrap for timestamps coming from `i64` fields. -/
theorem offset_min_of_eq {t1 tau2 : Int}
    (h1 : -(2 ^ 94) < t1 ∧ t1 < 2 ^ 94) (h2 : -(2 ^ 94) < tau2 ∧ tau2 < 2 ^ 94) :
    offset_min_of t1 tau2 = t1 - tau2 := by
  unfold offset_min_of i128_wrap
  omega

/-- Derived `offset_max` does not wrap for timestamps coming from `i64` fields. -/
theorem offset_max_of_eq {t3 tau2 : Int}
    (h3 : -(2 ^ 94) < t3 ∧ t3 < 2 ^ 94) (h2 : -(2 ^ 94) < tau2 ∧ tau2 < 2 ^ 94) :
    offset_max_of t3 tau2 = t3 - tau2 := by
  unfold offset_max_of i128_wrap
  omega

/-- Derived `offset` does not wrap for timestamps coming from `i64` fields. -/
theorem offset_of_eq {t1 tau2 t3 : Int}
    (h1 : -(2 ^ 94) < t1 ∧ t1 < 2 ^ 94) (h2 : -(2 ^ 94) < tau2 ∧ tau2 < 2 ^ 94)
    (h3 : -(2 ^ 94) < t3 ∧ t3 < 2 ^ 94) :
    offset_of t1 tau2 t3 = (t1 + t3).tdiv 2 - tau2 := by
  have hw : i128_wrap (t1 + t3) = t1 + t3 := by unfold i128_wrap; omega
  unfold offset_of
  rw [hw, tdiv_two_eq]
  unfold i128_wrap
  split <;> omega

/-- Monotonicity of `nsec_to_sec`: the exact rational model of the
nanoseconds-to-seconds conversion preserves order. -/
theorem nsec_to_sec_mono {a b : Int} (h : a ≤ b) : nsec_to_sec a ≤ nsec_to_sec b := by
  unfold nsec_to_sec
  have hab : (a : ℚ) ≤ (b : ℚ) := by exact_mod_cast h
  have hpos : (0 : ℚ) ≤ 1 / 1000000000 := by norm_num
  exact mul_le_mul_of_nonneg_right hab hpos

/-- C1 counterexample: at t1 = (0 s, 0 ns), tau2 = (0 s, 1 ns),
t3 = (0 s, 1 ns) the estimator computes offset = -1 ns while
(offset_min + offset_max) / 2 = (-1 + 0) / 2 = 0 under Rust's truncating
division, so the midpoint identity fails as stated. -/
theorem offset_midpoint_counterexample :
    offset_of (total_nsec 0 0) (total_nsec 0 1) (total_nsec 0 1) ≠
      (offset_min_of (total_nsec 0 0) (total_nsec 0 1) +
        offset_max_of (total_nsec 0 1) (total_nsec 0 1)).tdiv 2 := by
  decide

/-- C1 (amended): for every sample decoded from i64 fields, the midpoint
identity offset = (offset_min + offset_max) / 2 (with Rust's truncating
division) holds whenever t1 + t3 is even, or whenever t1 + t3 and
offset_min + offset_max are both nonnegative or both nonpositive (the two
truncations then round the same way); in every case the two sides differ
by at most one nanosecond. -/
theorem offset_midpoint_amended (s1 n1 s2 n2 s3 n3 : Int)
    (hs1 : i64Range s1) (hn1 : i64Range n1) (hs2 : i64Range s2) (hn2 : i64Range n2)
    (hs3 : i64Range s3) (hn3 : i64Range n3) :
    ((2 ∣ total_nsec s1 n1 + total_nsec s3 n3 ∨
        (0 ≤ total_nsec s1 n1 + total_nsec s3 n3 ∧
          0 ≤ offset_min_of (total_nsec s1 n1) (total_nsec s2 n2) +
            offset_max_of (total_nsec s3 n3) (total_nsec s2 n2)) ∨
        (total_nsec s1 n1 + total_nsec s3 n3 ≤ 0 ∧
          offset_min_of (total_nsec s1 n1) (total_nsec s2 n2) +
            offset_max_of (total_nsec s3 n3) (total_nsec s2 n2) ≤ 0)) →
      offset_of (total_nsec s1 n1) (total_nsec s2 n2) (total_nsec s3 n3) =
        (offset_min_of (total_nsec s1 n1) (total_nsec s2 n2) +
          offset_max_of (total_nsec s3 n3) (total_nsec s2 n2)).tdiv 2) ∧
    |offset_of (total_nsec s1 n1) (total_nsec s2 n2) (total_nsec s3 n3) -
      (offset_min_of (total_nsec s1 n1) (total_nsec s2 n2) +
        offset_max_of (total_nsec s3 n3) (total_nsec s2 n2)).tdiv 2| ≤ 1 := by
  have b1 := total_nsec_bound hs1 hn1
  have b2 := total_nsec_bound hs2 hn2
  have b3 := total_nsec_bound hs3 hn3
  set t1 := total_nsec s1 n1 with ht1
  set tau2 := total_nsec s2 n2 with ht2
  set t3 := total_nsec s3 n3 with ht3
  rw [offset_min_of_eq b1 b2, offset_max_of_eq b3 b2, offset_of_eq b1 b2 b3]
  rw [tdiv_two_eq (t1 + t3), tdiv_two_eq (t1 - tau2 + (t3 - tau2)), abs_le]
  constructor
  · intro h
    split_ifs <;> omega
  · split_ifs <;> omega

/-- C1 witness: the amended midpoint identity at the even-sum sample
t1 = (0 s, 0 ns), tau2 = (0 s, 0 ns), t3 = (0 s, 2 ns). -/
theorem offset_midpoint_amended_witness :
    offset_of (total_nsec 0 0) (total_nsec 0 0) (total_nsec 0 2) =
      (offset_min_of (total_nsec 0 0) (total_nsec 0 0) +
        offset_max_of (total_nsec 0 2) (total_nsec 0 0)).tdiv 2 :=
  (offset_midpoint_amended 0 0 0 0 0 2 (by decide) (by decide) (by decide)
    (by decide) (by decide) (by decide)).1 (by decide)

/-- C2: whenever t1 ≤ t3 as total nanoseconds, the estimator's derived
values satisfy offset_min ≤ offset ≤ offset_max, and the ordering is
preserved by the nanoseconds-to-seconds conversion. -/
theorem offset_bound_ordering (s1 n1 s2 n2 s3 n3 : Int)
    (hs1 : i64Range s1) (hn1 : i64Range n1) (hs2 : i64Range s2) (hn2 : i64Range n2)
    (hs3 : i64Range s3) (hn3 : i64Range n3)
    (hle : total_nsec s1 n1 ≤ total_nsec s3 n3) :
    offset_min_of (total_nsec s1 n1) (total_nsec s2 n2) ≤
        offset_of (total_nsec s1 n1) (total_nsec s2 n2) (total_nsec s3 n3) ∧
      offset_of (total_nsec s1 n1) (total_nsec s2 n2) (total_nsec s3 n3) ≤
        offset_max_of (total_nsec s3 n3) (total_nsec s2 n2) ∧
      nsec_to_sec (offset_min_of (total_nsec s1 n1) (total_nsec s2 n2)) ≤
        nsec_to_sec (offset_of (total_nsec s1 n1) (total_nsec s2 n2) (total_nsec s3 n3)) ∧
      nsec_to_sec (offset_of (total_nsec s1 n1) (total_nsec s2 n2) (total_nsec s3 n3)) ≤
        nsec_to_sec (offset_max_of (total_nsec s3 n3) (total_nsec s2 n2)) := by
  have b1 := total_nsec_bound hs1 hn1
  have b2 := total_nsec_bound hs2 hn2
  have b3 := total_nsec_bound hs3 hn3
  set t1 := total_nsec s1 n1 with ht1
  set tau2 := total_nsec s2 n2 with ht2
  set t3 := total_nsec s3 n3 with ht3
  have key : offset_min_of t1 tau2 ≤ offset_of t1 tau2 t3 ∧
      offset_of t1 tau2 t3 ≤ offset_max_of t3 tau2 := by
    rw [offset_min_of_eq b1 b2, offset_max_of_eq b3 b2, offset_of_eq b1 b2 b3,
      tdiv_two_eq]
    split_ifs <;> omega
  exact ⟨key.1, key.2, nsec_to_sec_mono key.1, nsec_to_sec_mono key.2⟩

/-- C2 witness: bound ordering at the concrete sample
t1 = (0 s, 0 ns), tau2 = (0 s, 1 ns), t3 = (0 s, 1 ns). -/
theorem offset_bound_ordering_witness :
    offset_min_of (total_nsec 0 0) (total_nsec 0 1) ≤
      offset_of (total_nsec 0 0) (total_nsec 0 1) (total_nsec 0 1) :=
  (offset_bound_ordering 0 0 0 1 0 1 (by decide) (by decide) (by decide)
    (by decide) (by decide) (by decide) (by decide)).1

/-- An `i64` encoding is always exactly 8 bytes. -/
theorem i64ToLeBytes_length (x : Int) : (i64ToLeBytes x).length = 8 := rfl

/-- Little-endian round trip on one `i64` field: decoding the 8-byte
encoding of an in-range value gives the value back. -/
theorem i64FromLeBytes_toLeBytes {x : Int}
    (h1 : -(2 ^ 63) ≤ x) (h2 : x < 2 ^ 63) :
    i64FromLeBytes (i64ToLeBytes x) = x := by
  unfold i64FromLeBytes i64ToLeBytes
  simp only [List.getD_cons_zero, List.getD_cons_succ]
  have hm : ((x % 2 ^ 64).toNat : Int) = x % 2 ^ 64 :=
    Int.toNat_of_nonneg (Int.emod_nonneg x (by positivity))
  split <;> omega

/-- C5: decoding the 16-byte little-endian encoding of a timestamp with
signed 64-bit fields yields the timestamp back. -/
theorem decodeTimestamp_encodeTimestamp (t : Int × Int)
    (h1 : i64Range t.1) (h2 : i64Range t.2) :
    decodeTimestamp (encodeTimestamp t) = t := by
  obtain ⟨s, n⟩ := t
  obtain ⟨hs1, hs2⟩ := h1
  obtain ⟨hn1, hn2⟩ := h2
  unfold decodeTimestamp encodeTimestamp
  rw [List.take_left' (i64ToLeBytes_length s), List.drop_left' (i64ToLeBytes_length s),
    List.take_of_length_le (by rw [i64ToLeBytes_length])]
  rw [i64FromLeBytes_toLeBytes hs1 hs2, i64FromLeBytes_toLeBytes hn1 hn2]

/-- C5 witness: round trip at the timestamp (-2, 999999999). -/
theorem decodeTimestamp_encodeTimestamp_witness :
    decodeTimestamp (encodeTimestamp (-2, 999999999)) = (-2, 999999999) :=
  decodeTimestamp_encodeTimestamp (-2, 999999999) (by decide) (by decide)

/-- C7: for all signed 64-bit fields, including nanoseconds outside
[0, 999999999], `total_nsec` returns exactly sec * 10^9 + nsec as a
mathematical integer: the 128-bit accumulator never wraps and no range
validation is applied to the nanoseconds field. -/
theorem total_nsec_exact (sec nsec : Int)
    (hs : i64Range sec) (hn : i64Range nsec) :
    total_nsec sec nsec = sec * 1000000000 + nsec :=
  total_nsec_eq hs hn

/-- C7 witness: an out-of-range nanoseconds field (5 * 10^9 ns) is folded
into the total without validation or overflow. -/
theorem total_nsec_exact_witness :
    total_nsec 1 5000000000 = 1 * 1000000000 + 5000000000 :=
  total_nsec_exact 1 5000000000 (by decide) (by decide)

/-- C4: on any 16-byte request and any reflector clock capture, the
reflector replies to the sender's address with exactly 32 bytes whose
first 16 bytes are the request echoed verbatim and whose last 16 bytes
are the little-endian encodings of the captured seconds then nanoseconds. -/
theorem reflect_step_echo (addr : Nat) (data : List Nat) (sec nsec : Int)
    (hlen : data.length = 16) :
    reflect_step addr data sec nsec =
        some (addr, data ++ i64ToLeBytes sec ++ i64ToLeBytes nsec) ∧
      (data ++ i64ToLeBytes sec ++ i64ToLeBytes nsec).length = 32 ∧
      (data ++ i64ToLeBytes sec ++ i64ToLeBytes nsec).take 16 = data ∧
      (data ++ i64ToLeBytes sec ++ i64ToLeBytes nsec).drop 16 =
        i64ToLeBytes sec ++ i64ToLeBytes nsec := by
  refine ⟨?_, ?_, ?_, ?_⟩
  · unfold reflect_step PAYLOAD_SIZE
    rw [if_neg (by omega), List.take_of_length_le (by omega)]
  · simp [List.length_append, hlen, i64ToLeBytes_length]
  · rw [List.append_assoc, List.take_left' hlen]
  · rw [List.append_assoc, List.drop_left' hlen]

/-- C4 witness: the echo property at the all-zero 16-byte request, sender
address 7, capture (0, 0). -/
theorem reflect_step_echo_witness :
    reflect_step 7 (List.replicate 16 0) 0 0 =
      some (7, List.replicate 16 0 ++ i64ToLeBytes 0 ++ i64ToLeBytes 0) :=
  (reflect_step_echo 7 (List.replicate 16 0) 0 0 (by decide)).1

/-- On a 32-byte datagram the four slice extractions succeed and decode
the four little-endian fields. -/
theorem receive_decode_eq {data : List Nat} (hlen : data.length = 32) :
    receive_decode data = Except.ok
      (i64FromLeBytes (data.take 8), i64FromLeBytes ((data.drop 8).take 8),
        i64FromLeBytes ((data.drop 16).take 8), i64FromLeBytes ((data.drop 24).take 8)) := by
  have h1 : (data.take 8).length = 8 := by simp [List.length_take, hlen]
  have h2 : ((data.drop 8).take 8).length = 8 := by
    simp [List.length_take, List.length_drop, hlen]
  have h3 : ((data.drop 16).take 8).length = 8 := by
    simp [List.length_take, List.length_drop, hlen]
  have h4 : ((data.drop 24).take 8).length = 8 := by
    simp [List.length_take, List.length_drop, hlen]
  unfold receive_decode try_into8
  simp only [h1, h2, h3, h4, if_pos]
  rfl

/-- C8: under the 32-byte length check, the four fixed-width field
extractions cannot fail: `receive_decode` succeeds and the fatal
decode-error branch of the estimator loop is unreachable. -/
theorem decode_branch_unreachable (data : List Nat) (hlen : data.length = 32) :
    (∃ v, receive_decode data = Except.ok v) ∧
      ∀ (sec3 nsec3 : Int), receive_step data sec3 nsec3 ≠ Except.error () := by
  constructor
  · exact ⟨_, receive_decode_eq hlen⟩
  · intro sec3 nsec3
    unfold receive_step REFLECTED_PAYLOAD_SIZE
    rw [if_neg (by omega), receive_decode_eq hlen]
    intro h
    exact Except.noConfusion h

/-- C8 witness: the extraction succeeds on the all-zero 32-byte datagram. -/
theorem decode_branch_unreachable_witness :
    ∃ v, receive_decode (List.replicate 32 0) = Except.ok v :=
  (decode_branch_unreachable (List.replicate 32 0) (by decide)).1

/-- C10: every 32-byte datagram, regardless of content, yields exactly one
Offset Sample record, computed solely from the datagram's bytes and the
arrival clock capture (the step is a function of those alone; no pairing
with outstanding requests exists). -/
theorem estimator_accepts_any_32 (data : List Nat) (sec3 nsec3 : Int)
    (hlen : data.length = 32) :
    receive_step data sec3 nsec3 =
      Except.ok (some (decodedSampleLine data sec3 nsec3)) := by
  unfold receive_step REFLECTED_PAYLOAD_SIZE
  rw [if_neg (by omega), receive_decode_eq hlen]
  rfl

/-- C10 witness: the all-zero 32-byte datagram (never sent by any emitter)
still produces exactly one record. -/
theorem estimator_accepts_any_32_witness :
    receive_step (List.replicate 32 0) 0 0 =
      Except.ok (some (decodedSampleLine (List.replicate 32 0) 0 0)) :=
  estimator_accepts_any_32 (List.replicate 32 0) 0 0 (by decide)

/-- C6: a wrong-length datagram is discarded by each role with no reply
and no printed record, without failing, and the loop goes on processing
the remaining trace. -/
theorem malformed_length_rejection :
    (∀ (addr : Nat) (data : List Nat) (sec nsec : Int), data.length ≠ 16 →
        reflect_step addr data sec nsec = none) ∧
      (∀ (addr : Nat) (data : List Nat) (sec nsec : Int)
          (rest : List (Nat × List Nat × Int × Int)), data.length ≠ 16 →
        reflect_replies ((addr, data, sec, nsec) :: rest) = reflect_replies rest) ∧
      (∀ (data : List Nat) (sec3 nsec3 : Int), data.length ≠ 32 →
        receive_step data sec3 nsec3 = Except.ok none) ∧
      (∀ (data : List Nat) (sec3 nsec3 : Int) (rest : List (List Nat × Int × Int)),
          data.length ≠ 32 →
        receive_lines ((data, sec3, nsec3) :: rest) = receive_lines rest) := by
  refine ⟨?_, ?_, ?_, ?_⟩
  · intro addr data sec nsec h
    simp [reflect_step, PAYLOAD_SIZE, h]
  · intro addr data sec nsec rest h
    simp [reflect_replies, reflect_step, PAYLOAD_SIZE, h]
  · intro data sec3 nsec3 h
    simp [receive_step, REFLECTED_PAYLOAD_SIZE, h]
  · intro data sec3 nsec3 rest h
    simp [receive_lines, receive_step, REFLECTED_PAYLOAD_SIZE, h]

/-- C6 witness: the empty datagram is discarded by both roles and removed
from the traces without stopping them. -/
theorem malformed_length_rejection_witness :
    reflect_step 0 [] 0 0 = none ∧ receive_step [] 0 0 = Except.ok none :=
  ⟨malformed_length_rejection.1 0 [] 0 0 (by decide),
    malformed_length_rejection.2.2.1 [] 0 0 (by decide)⟩

/-- C3: end-to-end scenario: for t1 = (1000, 0), tau2 = (1000, 500000000),
t3 = (1000, 800000000), the estimator accepts the reflected datagram
`encode(t1) ++ encode(tau2)` and computes offset_min = -0.5 s,
offset_max = 0.3 s, offset = -0.1 s (integer nanosecond differences
-500000000, 300000000, -100000000 converted to seconds). -/
theorem end_to_end_scenario :
    receive_step (encodeTimestamp (1000, 0) ++ encodeTimestamp (1000, 500000000))
        1000 800000000 =
      Except.ok (some (sampleLine 1000 0 1000 500000000 1000 800000000)) ∧
    offset_min_of (total_nsec 1000 0) (total_nsec 1000 500000000) = -500000000 ∧
    offset_max_of (total_nsec 1000 800000000) (total_nsec 1000 500000000) = 300000000 ∧
    offset_of (total_nsec 1000 0) (total_nsec 1000 500000000)
        (total_nsec 1000 800000000) = -100000000 ∧
    nsec_to_sec (-500000000) = -(1 / 2) ∧
    nsec_to_sec 300000000 = 3 / 10 ∧
    nsec_to_sec (-100000000) = -(1 / 10) := by
  refine ⟨by rfl, by decide, by decide, by decide, ?_, ?_, ?_⟩
  · norm_num [nsec_to_sec]
  · norm_num [nsec_to_sec]
  · norm_num [nsec_to_sec]

/-- Helper: an accepted (32-byte) datagram makes `receive_step` produce
exactly the decoded sample line. -/
theorem receive_step_ok_of_length32 {data : List Nat} {sec3 nsec3 : Int}
    (hlen : data.length = 32) :
    receive_step data sec3 nsec3 =
      Except.ok (some (decodedSampleLine data sec3 nsec3)) := by
  unfold receive_step REFLECTED_PAYLOAD_SIZE
  rw [if_neg (by omega), receive_decode_eq hlen]
  rfl

/-- The lines printed by the `receive` loop are exactly the accepted
samples of the trace, in order. -/
theorem receive_lines_eq (evs : List (List Nat × Int × Int)) :
    receive_lines evs = evs.filterMap acceptedLine := by
  induction evs with
  | nil => rfl
  | cons e rest ih =>
    obtain ⟨data, sec3, nsec3⟩ := e
    by_cases h : data.length = 32
    · simp [receive_lines, receive_step_ok_of_length32 h, acceptedLine, h,
        List.filterMap_cons, ih]
    · simp [receive_lines, receive_step, REFLECTED_PAYLOAD_SIZE, h, acceptedLine,
        List.filterMap_cons, ih]

/-- Every sample line contains a dot. -/
theorem dot_mem_sampleLine (a b c d e f : Int) : '.' ∈ (sampleLine a b c d e f).data := by
  have hdot : ('.' : Char) ∈ ("." : String).data := by decide
  unfold sampleLine
  simp only [String.data_append, List.mem_append]
  tauto

/-- No sample line equals the header line. -/
theorem sampleLine_ne_headerLine (a b c d e f : Int) :
    sampleLine a b c d e f ≠ headerLine := by
  intro hEq
  have h1 := dot_mem_sampleLine a b c d e f
  rw [hEq] at h1
  exact (by decide : ¬ ('.' : Char) ∈ headerLine.data) h1

/-- Padding a string no longer than `w` yields exactly `w` characters. -/
theorem padZeros_length (w : Nat) (s : String) (h : s.length ≤ w) :
    (padZeros w s).length = w := by
  unfold padZeros
  split
  · rw [String.length_append, String.length_mk, List.length_replicate]
    omega
  · omega

/-- The decimal representation of a number below 10^9 takes at most 9
characters. -/
theorem repr_le_nine {m : Nat} (h : m < 1000000000) : (Nat.repr m).length ≤ 9 :=
  Nat.repr_length m 9 (by norm_num) (by norm_num; omega)

/-- Formatting an in-range nanoseconds field with `{:09}` gives 9 characters. -/
theorem fmt09_length {n : Int} (h0 : 0 ≤ n) (h9 : n < 1000000000) :
    (fmt09 n).length = 9 := by
  unfold fmt09
  rw [if_neg (by omega)]
  exact padZeros_length 9 _ (repr_le_nine (by omega))

/-- C9: the estimator output is the header line naming the columns
followed by exactly one formatted data line per accepted sample (in
arrival order); the header appears only there, so it is emitted exactly
once and before the first sample; in-range nanosecond fields print as 9
zero-padded digits and each offset prints with exactly 9 fractional
digits after its decimal dot. -/
theorem estimator_output_format (evs : List (List Nat × Int × Int)) :
    receive_output evs = headerLine :: evs.filterMap acceptedLine ∧
      headerLine ∉ receive_lines evs ∧
      (∀ n : Int, 0 ≤ n → n < 1000000000 → (fmt09 n).length = 9) ∧
      (∀ x : Int, ∃ pre : String,
        fmtSec9 x = pre ++ "." ++ padZeros 9 (Nat.repr (x.natAbs % 1000000000)) ∧
        (padZeros 9 (Nat.repr (x.natAbs % 1000000000))).length = 9) := by
  refine ⟨?_, ?_, ?_, ?_⟩
  · unfold receive_output
    rw [receive_lines_eq]
  · rw [receive_lines_eq]
    intro hmem
    obtain ⟨ev, _, hev⟩ := List.mem_filterMap.mp hmem
    unfold acceptedLine at hev
    split at hev
    · exact sampleLine_ne_headerLine _ _ _ _ _ _ (Option.some_inj.mp hev)
    · exact Option.noConfusion hev
  · intro n h0 h9
    exact fmt09_length h0 h9
  · intro x
    refine ⟨(if x < 0 then "-" else "") ++ Nat.repr (x.natAbs / 1000000000), ?_, ?_⟩
    · unfold fmtSec9
      rw [String.append_assoc, String.append_assoc]
    · exact padZeros_length 9 _ (repr_le_nine (Nat.mod_lt _ (by norm_num)))

/-- C9 witness: on the empty trace the output is just the header, and the
nanoseconds field 0 prints as 9 zero-padded digits. -/
theorem estimator_output_format_witness :
    receive_output [] = [headerLine] ∧ (fmt09 0).length = 9 := by
  have h := estimator_output_format []
  exact ⟨by simpa using h.1, h.2.2.1 0 (by decide) (by decide)⟩
